import Mathlib

/-!
# gangster: a gmond to carbon relay

A shallow embedding of `gangster.go` and the properties of its metric emitter,
sink connector and poll loop.

Modelling conventions.

* Go strings are modelled by `String`, read as sequences of code points
  (the XML decoder only yields valid UTF-8).
* Package level variables are fields of `Globals`, passed explicitly.
* The outside world (gmond, the XML decoder, the resolver, the dialler) is an
  explicit `World` value; every interaction with it is recorded as an `Event`.
* `int` and `time.Duration` are 64 bit: arithmetic is wrapped by `wrap64`.
* Log output is not part of the recorded trace.
-/

namespace Gangster

/-! ## Data model (gangster.go, lines 19-37) -/

structure Metric where
  Name : String
  Value : String
deriving DecidableEq, Repr

structure Host where
  Name : String
  Reported : Int
  Metrics : List Metric
deriving DecidableEq, Repr

structure Cluster where
  Name : String
  Hosts : List Host
deriving DecidableEq, Repr

structure Ganglia where
  Clusters : List Cluster
deriving DecidableEq, Repr

/-! ## Library functions used by the emitter -/

/-- The call `strings.Replace(s, old, new, -1)` for a non-empty `old`: every
non-overlapping occurrence of `old`, found left to right, is replaced by `new`.
The counter is the number of characters of a matched occurrence still to skip. -/
def Replace (old new : List Char) : Nat → List Char → List Char
  | _, [] => []
  | skip + 1, _ :: cs => Replace old new skip cs
  | 0, c :: cs =>
    if old.isPrefixOf (c :: cs) then new ++ Replace old new (old.length - 1) cs
    else c :: Replace old new 0 cs

/-- The verb `%d` applied to an `int`. -/
def decimal : Int → String
  | Int.ofNat n => Nat.repr n
  | Int.negSucc n => "-" ++ Nat.repr (n + 1)

/-- The flag characters accepted after a percent sign. -/
def isFlag (c : Char) : Bool :=
  c = '#' || c = '0' || c = '+' || c = '-' || c = ' '

/-- Loop of `parsenum` (fmt/print.go): `none` when the number read so far
exceeds 10^6 and another digit follows. -/
def parsenumAux (num : Nat) (isnum : Bool) : List Char → Option (Nat × Bool × List Char)
  | [] => some (num, isnum, [])
  | c :: cs =>
    if c.isDigit then
      if num > 1000000 then none
      else parsenumAux (num * 10 + (c.toNat - 48)) true cs
    else some (num, isnum, c :: cs)

/-- Function `parsenum` of fmt/print.go up to the end of the format: the number
read, whether a digit was read, and the rest of the format.  A number that is
too large consumes everything up to the end. -/
def parsenum (s : List Char) : Nat × Bool × List Char :=
  match parsenumAux 0 false s with
  | some r => r
  | none => (0, false, [])

/-- Function `parseArgNumber` of fmt/print.go, on a format that starts with an
opening bracket: the number of characters to consume and whether a well formed
`[n]` was read. -/
def parseArgNumber (format : List Char) : Nat × Bool :=
  if format.length < 3 then (1, false)
  else
    let body := (format.drop 1).takeWhile (fun c => c != ']')
    if body.length + 1 < format.length then
      -- a closing bracket stands at index `body.length + 1`
      match parsenumAux 0 false body with
      | some (_, true, []) => (body.length + 2, true)
      | _ => (body.length + 2, false)
    else (1, false)

/-- Method `argNumber` of fmt/print.go when there is no operand: the rest of
the format, whether an index was found, and the new value of `goodArgNum`.
With no operand no index is in range. -/
def argNumber (good : Bool) (s : List Char) : List Char × Bool × Bool :=
  match s with
  | '[' :: _ =>
    let r := parseArgNumber s
    (s.drop r.1, r.2, false)
  | _ => (s, false, good)

/-- The width part of a directive of `doPrintf`: a star (there is no operand to
take the width from, so BADWIDTH is written) or a number.  Returns what is
written, the rest of the format, `afterIndex` and `goodArgNum`. -/
def widthStage (s : List Char) (afterIndex good : Bool) :
    List Char × List Char × Bool × Bool :=
  match s with
  | '*' :: t => ("%!(BADWIDTH)".data, t, false, good)
  | _ =>
    let w := parsenum s
    ([], w.2.2, afterIndex, good && !(afterIndex && w.2.1))

/-- The precision part of a directive of `doPrintf`: after a dot, an optional
argument index, then a star (BADPREC is written) or a number. -/
def precStage (out : List Char) (s : List Char) (afterIndex good : Bool) :
    List Char × List Char × Bool × Bool :=
  match s with
  | '.' :: t =>
    let a := argNumber (good && !afterIndex) t
    match a.1 with
    | '*' :: t2 => (out ++ "%!(BADPREC)".data, t2, false, a.2.2)
    | _ => (out, (parsenum a.1).2.2, a.2.1, a.2.2)
  | _ => (out, s, afterIndex, good)

/-- The verb of a directive of `doPrintf` when there is no operand: NOVERB at
the end of the format, a percent sign for the verb `%`, BADINDEX after a bad
argument index, MISSING otherwise. -/
def verbStage (out : List Char) (s : List Char) (good : Bool) : List Char × List Char :=
  match s with
  | [] => (out ++ "%!(NOVERB)".data, [])
  | verb :: rest =>
    if verb = '%' then (out ++ ['%'], rest)
    else if !good then (out ++ '%' :: '!' :: verb :: "(BADINDEX)".data, rest)
    else (out ++ '%' :: '!' :: verb :: "(MISSING)".data, rest)

/-- One directive of `doPrintf` (fmt/print.go) when there is no operand; the
argument is the format after the percent sign.  In turn: flags, argument index,
width, precision, argument index again unless one was just read, verb.  Returns
what is written and the rest of the format. -/
def directive (s : List Char) : List Char × List Char :=
  let a := argNumber true (s.dropWhile isFlag)
  let b := widthStage a.1 a.2.1 a.2.2
  let c := precStage b.1 b.2.1 b.2.2.1 b.2.2.2
  let d := if c.2.2.1 then (c.2.1, c.2.2.2) else
    ((argNumber c.2.2.2 c.2.1).1, (argNumber c.2.2.2 c.2.1).2.2)
  verbStage c.1 d.1 d.2

/-- Method `doPrintf` of fmt/print.go when there is no operand.  Every round
consumes at least one character of the format, so the length of the format is
enough fuel (`doPrintf_fuel`). -/
def doPrintf : Nat → List Char → List Char
  | 0, _ => []
  | _ + 1, [] => []
  | fuel + 1, c :: cs =>
    if c = '%' then
      let r := directive cs
      r.1 ++ doPrintf fuel r.2
    else c :: doPrintf fuel cs

/-- What `fmt.Fprintf(w, format)` (no operand) hands to `w.Write`. -/
def Fprintf (format : String) : String :=
  String.mk (doPrintf format.length format.data)

/-! ## The metric emitter (gangster.go, lines 148-167) -/

/-- The space to underscore replacement of line 158. -/
def normalize (name : String) : String :=
  String.mk (Replace " ".data "_".data 0 name.data)

/-- Line 158: `fmt.Sprintf("%s%s.%s.sum %s %d\n", ...)`. -/
def metric_string ( graphite_prefix hostname : String) (metric : Metric) (reported : Int) :
    String :=
  graphite_prefix ++ hostname ++ "." ++ normalize metric.Name ++ ".sum " ++ metric.Value
    ++ " " ++ decimal reported ++ "\n"

/-! ## Configuration, the outside world and the trace -/

/-- The package level variables of line 169. -/
structure Globals where
  gmond_address : String
  gmond_port : String
  carbon_address : String
  carbon_port : String
  carbon_protocol : String
  graphite_prefix : String
  log_file : String
  cluster_as_a_prefix : String
  sleep_time : String
deriving DecidableEq, Repr

/-- A connection handle returned by the dialler. -/
abbrev Conn := Nat

/-- A byte slice. -/
abbrev Bytes := List Nat

/-- The observable actions of the connector, the emitter and the poll loop.
Durations are in nanoseconds, as the argument of `time.Sleep`. -/
inductive Event where
  /-- Call of `net.LookupHost` (line 127). -/
  | lookup (host : String)
  /-- Call of `net.DialTimeout` towards carbon (line 140). -/
  | dial (network address : String)
  /-- One `Write` on the carbon connection (line 159). -/
  | write (c : Conn) (data : String)
  /-- Call of `Close` on the carbon connection (line 166). -/
  | close (c : Conn)
  /-- The sleep of line 237. -/
  | errSleep (d : Int)
  /-- The sleep of line 264. -/
  | pollSleep (d : Int)
deriving DecidableEq, Repr

/-- What the environment answers during one round of the poll loop.  A nil IP
or a nil slice is the empty list; `true` in an error position means `err != nil`. -/
structure World where
  /-- Answer of `net.DialTimeout("tcp", address, 10s)` towards gmond: connected or not. -/
  DialGmond : String → Bool
  /-- Answer of `ioutil.ReadAll(conn)`: the data and whether an error occurred. -/
  ReadAll : Bytes × Bool
  /-- Answer of `decoder.Decode(&xml_root)`: the value left in `xml_root` and the error. -/
  Decode : Bytes → Ganglia × Bool
  /-- Function `net.ParseIP`. -/
  ParseIP : String → List Nat
  /-- Answer of `net.LookupHost`: the addresses and the error. -/
  LookupHost : String → List String × Bool
  /-- Answer of `net.DialTimeout(network, address, 10s)` towards carbon: `none` on error. -/
  DialTimeout : String → String → Option Conn

/-- Method `To4` of `net.IP`: the 4 byte form of an IPv4 address, nil otherwise. -/
def To4 (ip : List Nat) : List Nat :=
  if ip.length = 4 then ip
  else if ip.length = 16 && (ip.take 10).all (fun b => b == 0) && ip[10]? == some 255
      && ip[11]? == some 255 then ip.drop 12
  else []

/-- Wrap around of 64 bit signed arithmetic. -/
def wrap64 (x : Int) : Int :=
  (x + 2 ^ 63) % 2 ^ 64 - 2 ^ 63

/-- Constant `time.Second`, in nanoseconds. -/
def Second : Int := 1000000000

/-- Line 172. -/
def ERR_INIT_SLEEP_TIME : Int := 2

/-- Line 173. -/
def ERR_MAX_SLEEP_TIM : Int := 32

/-- Line 176. -/
def ERR_SLEEP_TIME_MX : Int := 2

/-! ## The fetcher and the decoder (lines 76-116) -/

/-- Function `get_gmond_xml`: the data and the success flag. -/
def get_gmond_xml (g : Globals) (w : World) : Bytes × Bool :=
  let gmond_conn_string := g.gmond_address ++ ":" ++ g.gmond_port
  if w.DialGmond gmond_conn_string then
    match w.ReadAll with
    | (_, true) => ([], false)
    | (gmond_date, false) => (gmond_date, true)
  else ([], false)

/-- Function `process_xml`: the decoded root and the error of the decoder. -/
def process_xml (w : World) (gmond_data : Bytes) : Ganglia × Bool :=
  w.Decode gmond_data

/-! ## The sink connector (lines 118-145) -/

/-- How a call of `connect_to_carbon` ends. -/
inductive CarbonResult where
  /-- Returns `(conn, nil)`. -/
  | conn (c : Conn)
  /-- Returns a non-nil error. -/
  | err
  /-- The index expression `carbon_ips[0]` of line 134 is out of range: the
  run time panics and the process exits. -/
  | indexOutOfRange
deriving DecidableEq, Repr

/-- Function `connect_to_carbon`. -/
def connect_to_carbon (g : Globals) (w : World) : List Event × CarbonResult :=
  let carbon_ip := w.ParseIP g.carbon_address
  let (ev, carbon_ips) :=
    if To4 carbon_ip ≠ [] then (([] : List Event), [g.carbon_address])
    else ([Event.lookup g.carbon_address], (w.LookupHost g.carbon_address).1)
  match carbon_ips with
  | [] => (ev, CarbonResult.indexOutOfRange)
  | ip0 :: _ =>
    let conn_string := ip0 ++ ":" ++ g.carbon_port
    match w.DialTimeout g.carbon_protocol conn_string with
    | some c => (ev ++ [Event.dial g.carbon_protocol conn_string], CarbonResult.conn c)
    | none => (ev ++ [Event.dial g.carbon_protocol conn_string], CarbonResult.err)

/-! ## The metric emitter, continued -/

/-- Lines 157-160: the loop over the metrics of one host. -/
def sendMetrics (c : Conn) ( graphite_prefix hostname : String) (reported : Int) :
    List Metric → List Event
  | [] => []
  | metric :: rest =>
    Event.write c (Fprintf (metric_string graphite_prefix hostname metric reported))
      :: sendMetrics c graphite_prefix hostname reported rest

/-- Lines 154-161: the loop over the hosts of one cluster. -/
def sendHosts (c : Conn) ( graphite_prefix : String) : List Host → List Event
  | [] => []
  | host :: rest =>
    sendMetrics c graphite_prefix host.Name host.Reported host.Metrics
      ++ sendHosts c graphite_prefix rest

/-- Lines 149-164: the loop over the clusters; the shared variable
`graphite_prefix` is threaded through. -/
def sendClusters (c : Conn) (g : Globals) : List Cluster → List Event × Globals
  | [] => ([], g)
  | cluster :: rest =>
    let g1 : Globals :=
      if g.cluster_as_a_prefix ≠ "" then { g with graphite_prefix := cluster.Name ++ "." }
      else g
    let ev := sendHosts c g1.graphite_prefix cluster.Hosts
    let r := sendClusters c g1 rest
    (ev ++ r.1, r.2)

/-- Function `send_carbon_data`. -/
def send_carbon_data (g : Globals) (xml_root : Ganglia) (carbon_connection : Conn) :
    List Event × Globals :=
  let r := sendClusters carbon_connection g xml_root.Clusters
  (r.1 ++ [Event.close carbon_connection], r.2)

/-! ## The poll loop (lines 220-265) -/

/-- The variables that live across rounds of the loop. -/
structure LoopState where
  globals : Globals
  err_sleep_time : Int
deriving DecidableEq, Repr

/-- The state on entry of the loop (lines 201 and 220). -/
def initState (config : Globals) : LoopState :=
  { globals := config, err_sleep_time := ERR_INIT_SLEEP_TIME }

/-- One round of the loop of lines 232-265: the trace of the round and the
state at its end, or `none` when the process died in the round. -/
def iteration (sleep_duration : Int) (st : LoopState) (w : World) :
    List Event × Option LoopState :=
  match get_gmond_xml st.globals w with
  | (_, false) =>
    let slept := [Event.errSleep (wrap64 (st.err_sleep_time * Second))]
    let doubled := wrap64 (st.err_sleep_time * ERR_SLEEP_TIME_MX)
    if doubled > ERR_MAX_SLEEP_TIM then
      (slept, some { st with err_sleep_time := ERR_INIT_SLEEP_TIME })
    else (slept, some { st with err_sleep_time := doubled })
  | (gmond_xml, true) =>
    match process_xml w gmond_xml with
    | (_, true) => ([], some st)
    | (ganglia_data, false) =>
      match connect_to_carbon st.globals w with
      | (ev, CarbonResult.indexOutOfRange) => (ev, none)
      | (ev, CarbonResult.err) => (ev, some st)
      | (ev, CarbonResult.conn carbon_conn) =>
        let sent := send_carbon_data st.globals ganglia_data carbon_conn
        (ev ++ sent.1 ++ [Event.pollSleep (wrap64 (sleep_duration * Second))],
          some { globals := sent.2, err_sleep_time := ERR_INIT_SLEEP_TIME })

/-- The first rounds of the loop, one per element of the list. -/
def run (sleep_duration : Int) : LoopState → List World → List Event × Option LoopState
  | st, [] => ([], some st)
  | st, w :: ws =>
    match iteration sleep_duration st w with
    | (ev, none) => (ev, none)
    | (ev, some st1) =>
      let r := run sleep_duration st1 ws
      (ev ++ r.1, r.2)

/-- The data of the `write` events of a trace, in order. -/
def writes : List Event → List String
  | [] => []
  | Event.write _ data :: rest => data :: writes rest
  | _ :: rest => writes rest

/-! ## The flattening of a snapshot -/

/-- The metrics of a host, each with its cluster and host. -/
def flattenMetrics (cluster : Cluster) (host : Host) : List Metric → List (Cluster × Host × Metric)
  | [] => []
  | m :: ms => (cluster, host, m) :: flattenMetrics cluster host ms

/-- The metrics of the hosts of a cluster, hosts in cluster order. -/
def flattenHosts (cluster : Cluster) : List Host → List (Cluster × Host × Metric)
  | [] => []
  | h :: hs => flattenMetrics cluster h h.Metrics ++ flattenHosts cluster hs

/-- The metrics of a list of clusters, clusters in list order. -/
def flattenClusters : List Cluster → List (Cluster × Host × Metric)
  | [] => []
  | c :: cs => flattenHosts c c.Hosts ++ flattenClusters cs

/-- The flattening of a snapshot: clusters in snapshot order, then hosts in
cluster order, then metrics in host order. -/
def flatten (xml_root : Ganglia) : List (Cluster × Host × Metric) :=
  flattenClusters xml_root.Clusters

/-- The number of metrics of a snapshot. -/
def metricCount (xml_root : Ganglia) : Nat :=
  (xml_root.Clusters.map (fun c => (c.Hosts.map (fun h => h.Metrics.length)).sum)).sum

/-- The path head in use for the metrics of a cluster: the cluster name and a
dot when the flag is set, the configured one otherwise. -/
def effectivePfx (g : Globals) (cluster : Cluster) : String :=
  if g.cluster_as_a_prefix ≠ "" then cluster.Name ++ "." else g.graphite_prefix

/-- The record the emitter hands to the connection for one metric. -/
def record (pfx : String) (t : Cluster × Host × Metric) : String :=
  Fprintf (metric_string pfx t.2.1.Name t.2.2 t.2.1.Reported)

/-- The path component of the line protocol: the text before the value field. -/
def metric_path (pfx hostname : String) (metric : Metric) : String :=
  pfx ++ hostname ++ "." ++ normalize metric.Name ++ ".sum"

/-- A configuration with everything empty but the addresses. -/
def sampleConfig : Globals :=
  { gmond_address := "127.0.0.1", gmond_port := "8649", carbon_address := "10.0.0.5",
    carbon_port := "2003", carbon_protocol := "tcp", graphite_prefix := "",
    log_file := "", cluster_as_a_prefix := "", sleep_time := "" }

/-- The values of `net.ParseIP` on the addresses used in the examples below: the
16 byte form of the IPv4 literal "10.0.0.5" and of the IPv6 literal "::1", and
nil for a host name. -/
def sampleParseIP (s : String) : List Nat :=
  if s = "10.0.0.5" then [0, 0, 0, 0, 0, 0, 0, 0, 0, 0, 255, 255, 10, 0, 0, 5]
  else if s = "::1" then [0, 0, 0, 0, 0, 0, 0, 0, 0, 0, 0, 0, 0, 0, 0, 1]
  else []

/-- The snapshot of the end to end scenario of the specification. -/
def sampleSnapshot : Ganglia :=
  ⟨[⟨"c1", [⟨"h1", 1000, [⟨"cpu idle", "99.5"⟩]⟩]⟩]⟩

/-- A round in which everything works: gmond answers, the answer decodes to
`sampleSnapshot`, the resolver knows "carbon.example" (two addresses) and
answers an IP literal by itself, and carbon accepts the connection. -/
def worldUp : World :=
  { DialGmond := fun _ => true
    ReadAll := ([60, 71, 47, 62], false)
    Decode := fun _ => (sampleSnapshot, false)
    ParseIP := sampleParseIP
    LookupHost := fun h =>
      if h = "carbon.example" then (["192.0.2.7", "192.0.2.8"], false)
      else if h = "::1" then (["::1"], false)
      else ([], true)
    DialTimeout := fun _ _ => some 0 }

/-- A round in which gmond cannot be reached. -/
def worldDown : World :=
  { worldUp with DialGmond := fun _ => false }

/-- A round in which gmond answers something the decoder rejects. -/
def worldBadXml : World :=
  { worldUp with ReadAll := ([], false), Decode := fun _ => (⟨[]⟩, true) }

/-- A round in which the resolver fails: an error and no address. -/
def worldNoResolver : World :=
  { worldUp with LookupHost := fun _ => ([], true) }

/-- A round in which carbon refuses the connection. -/
def worldSinkDown : World :=
  { worldUp with DialTimeout := fun _ _ => none }

/-- The periodic sequence 2, 4, 8, 16, 32, 2, ... of the claims. -/
def backoffAt (i : Nat) : Int :=
  2 ^ (i % 5 + 1)

/-- The event is one of the two sleeps. -/
def isSleep : Event → Bool
  | Event.errSleep _ => true
  | Event.pollSleep _ => true
  | _ => false

/-- The event is a write on the carbon connection. -/
def isWrite : Event → Bool
  | Event.write _ _ => true
  | _ => false

/-- The event is a call of the resolver. -/
def isLookup : Event → Bool
  | Event.lookup _ => true
  | _ => false

/-! ## Lemmas on the library functions -/

theorem Replace_space (l : List Char) :
    Replace [' '] ['_'] 0 l = l.map (fun c => if c = ' ' then '_' else c) := by
  induction l with
  | nil => rfl
  | cons c cs ih =>
    by_cases h : c = ' '
    · subst h
      simp [Replace, ih]
    · have h2 : ¬ (' ' = c) := fun e => h e.symm
      simp [Replace, ih, h, h2]

theorem normalize_data (n : String) :
    (normalize n).data = n.data.map (fun c => if c = ' ' then '_' else c) := by
  show Replace [' '] ['_'] 0 n.data = _
  exact Replace_space n.data

theorem doPrintf_no_percent (l : List Char) :
    ∀ fuel, '%' ∉ l → l.length ≤ fuel → doPrintf fuel l = l := by
  induction l with
  | nil => intro fuel _ _; cases fuel <;> rfl
  | cons c cs ih =>
    intro fuel h hl
    cases fuel with
    | zero => simp at hl
    | succ k =>
      have hc : c ≠ '%' := fun e => h (by simp [e])
      have hcs : '%' ∉ cs := fun e => h (by simp [e])
      have hk : cs.length ≤ k := by simpa using hl
      simp [doPrintf, hc, ih k hcs hk]

theorem parsenumAux_length (s : List Char) :
    ∀ (num : Nat) (isnum : Bool) (r : Nat × Bool × List Char),
      parsenumAux num isnum s = some r → r.2.2.length ≤ s.length := by
  induction s with
  | nil =>
    intro num isnum r h
    simp only [parsenumAux, Option.some.injEq] at h
    subst h
    exact le_refl _
  | cons c cs ih =>
    intro num isnum r h
    unfold parsenumAux at h
    by_cases hd : c.isDigit = true
    · rw [if_pos hd] at h
      by_cases hn : num > 1000000
      · rw [if_pos hn] at h
        cases h
      · rw [if_neg hn] at h
        exact Nat.le_succ_of_le (ih _ _ r h)
    · rw [if_neg hd] at h
      simp only [Option.some.injEq] at h
      subst h
      exact le_refl _

theorem parsenum_length (s : List Char) : (parsenum s).2.2.length ≤ s.length := by
  unfold parsenum
  cases h : parsenumAux 0 false s with
  | none => simp
  | some r => exact parsenumAux_length s 0 false r h

theorem argNumber_length (good : Bool) (s : List Char) :
    (argNumber good s).1.length ≤ s.length := by
  unfold argNumber
  split
  · simp only [List.length_drop]
    exact Nat.sub_le _ _
  · exact le_refl _

theorem widthStage_length (s : List Char) (afterIndex good : Bool) :
    (widthStage s afterIndex good).2.1.length ≤ s.length := by
  unfold widthStage
  split
  · simp
  · exact parsenum_length s

theorem precStage_length (out s : List Char) (afterIndex good : Bool) :
    (precStage out s afterIndex good).2.1.length ≤ s.length := by
  unfold precStage
  split
  · rename_i t
    have h1 := argNumber_length (good && !afterIndex) t
    have h2 := parsenum_length (argNumber (good && !afterIndex) t).1
    generalize argNumber (good && !afterIndex) t = a at h1 h2 ⊢
    simp only
    split
    · rename_i t2 heq
      simp only [List.length_cons]
      rw [heq] at h1
      simp only [List.length_cons] at h1
      omega
    · simp only [List.length_cons]
      omega
  · exact le_refl _

theorem verbStage_length (out s : List Char) (good : Bool) :
    (verbStage out s good).2.length ≤ s.length := by
  unfold verbStage
  split
  · simp
  · rename_i verb rest
    by_cases h1 : verb = '%'
    · simp [h1]
    · by_cases h2 : (!good) = true
      · simp [h1, h2]
      · simp [h1, h2]

theorem directive_length (s : List Char) : (directive s).2.length ≤ s.length := by
  unfold directive
  simp only
  have h0 := (List.dropWhile_sublist (l := s) isFlag).length_le
  have ha := argNumber_length true (s.dropWhile isFlag)
  generalize argNumber true (s.dropWhile isFlag) = a at ha ⊢
  have hb := widthStage_length a.1 a.2.1 a.2.2
  generalize widthStage a.1 a.2.1 a.2.2 = b at hb ⊢
  have hc := precStage_length b.1 b.2.1 b.2.2.1 b.2.2.2
  generalize precStage b.1 b.2.1 b.2.2.1 b.2.2.2 = c at hc ⊢
  have hd := argNumber_length c.2.2.2 c.2.1
  by_cases hi : c.2.2.1 = true
  · rw [if_pos hi]
    have hv := verbStage_length c.1 c.2.1 c.2.2.2
    simp only at hv ⊢
    omega
  · rw [if_neg hi]
    have hv := verbStage_length c.1 (argNumber c.2.2.2 c.2.1).1 (argNumber c.2.2.2 c.2.1).2.2
    simp only at hv ⊢
    omega

/-- The fuel of `doPrintf` is never exhausted from the length of the format on:
more fuel gives the same output. -/
theorem doPrintf_fuel (n : Nat) :
    ∀ (l : List Char) (fuel : Nat), l.length ≤ n → l.length ≤ fuel →
      doPrintf fuel l = doPrintf l.length l := by
  induction n with
  | zero =>
    intro l fuel hn _
    have e : l = [] := List.eq_nil_of_length_eq_zero (Nat.le_zero.1 hn)
    subst e
    cases fuel <;> rfl
  | succ n ih =>
    intro l fuel hn hfuel
    cases l with
    | nil => cases fuel <;> rfl
    | cons c cs =>
      cases fuel with
      | zero => simp at hfuel
      | succ k =>
        have hcs : cs.length ≤ n := by simpa using hn
        have hk : cs.length ≤ k := by simpa using hfuel
        have hr := directive_length cs
        simp only [List.length_cons, doPrintf]
        by_cases hc : c = '%'
        · rw [if_pos hc, if_pos hc,
            ih (directive cs).2 k (le_trans hr hcs) (le_trans hr hk),
            ih (directive cs).2 cs.length (le_trans hr hcs) hr]
        · rw [if_neg hc, if_neg hc, ih cs k hcs hk]

theorem Fprintf_no_percent (format : String) (h : '%' ∉ format.data) :
    Fprintf format = format := by
  apply String.ext
  show doPrintf format.length format.data = format.data
  exact doPrintf_no_percent format.data format.length h (le_refl _)

/-! ## Lemmas on the emitter -/

theorem sendMetrics_eq (c : Conn) (pfx : String) (cluster : Cluster) (host : Host)
    (ms : List Metric) :
    sendMetrics c pfx host.Name host.Reported ms
      = (flattenMetrics cluster host ms).map (fun t => Event.write c (record pfx t)) := by
  induction ms with
  | nil => rfl
  | cons m ms ih => simp [sendMetrics, flattenMetrics, ih, record]

theorem sendHosts_eq (c : Conn) (pfx : String) (cluster : Cluster) (hs : List Host) :
    sendHosts c pfx hs
      = (flattenHosts cluster hs).map (fun t => Event.write c (record pfx t)) := by
  induction hs with
  | nil => rfl
  | cons h hs ih => simp [sendHosts, flattenHosts, ih, sendMetrics_eq c pfx cluster h]

theorem flattenMetrics_fst (cluster : Cluster) (host : Host) (ms : List Metric) :
    ∀ t ∈ flattenMetrics cluster host ms, t.1 = cluster := by
  induction ms with
  | nil => intro t ht; simp [flattenMetrics] at ht
  | cons m ms ih =>
    intro t ht
    simp only [flattenMetrics, List.mem_cons] at ht
    rcases ht with rfl | ht
    · rfl
    · exact ih t ht

theorem flattenHosts_fst (cluster : Cluster) (hs : List Host) :
    ∀ t ∈ flattenHosts cluster hs, t.1 = cluster := by
  induction hs with
  | nil => intro t ht; simp [flattenHosts] at ht
  | cons h hs ih =>
    intro t ht
    simp only [flattenHosts, List.mem_append] at ht
    rcases ht with ht | ht
    · exact flattenMetrics_fst cluster h h.Metrics t ht
    · exact ih t ht

theorem sendClusters_events (c : Conn) (cs : List Cluster) :
    ∀ g : Globals, (sendClusters c g cs).1
      = (flattenClusters cs).map (fun t => Event.write c (record (effectivePfx g t.1) t)) := by
  induction cs with
  | nil => intro g; rfl
  | cons cl cs ih =>
    intro g
    by_cases hflag : g.cluster_as_a_prefix = ""
    · have h1 : effectivePfx g cl = g.graphite_prefix := by simp [effectivePfx, hflag]
      have hhead : (flattenHosts cl cl.Hosts).map
            (fun t => Event.write c (record (effectivePfx g t.1) t))
          = (flattenHosts cl cl.Hosts).map (fun t => Event.write c (record g.graphite_prefix t)) := by
        apply List.map_congr_left
        intro t ht
        rw [flattenHosts_fst cl cl.Hosts t ht, h1]
      simp only [sendClusters, flattenClusters, List.map_append, hflag, ne_eq, not_true_eq_false,
        if_false, ih g, hhead, sendHosts_eq c g.graphite_prefix cl]
    · have h1 : effectivePfx g cl = cl.Name ++ "." := by simp [effectivePfx, hflag]
      have hhead : (flattenHosts cl cl.Hosts).map
            (fun t => Event.write c (record (effectivePfx g t.1) t))
          = (flattenHosts cl cl.Hosts).map (fun t => Event.write c (record (cl.Name ++ ".") t)) := by
        apply List.map_congr_left
        intro t ht
        rw [flattenHosts_fst cl cl.Hosts t ht, h1]
      have htail : ∀ t : Cluster × Host × Metric,
          effectivePfx { g with graphite_prefix := cl.Name ++ "." } t.1 = effectivePfx g t.1 := by
        intro t
        simp [effectivePfx, hflag]
      simp only [sendClusters, flattenClusters, List.map_append, hflag, ne_eq, not_false_eq_true,
        if_true, ih, hhead, htail, sendHosts_eq c (cl.Name ++ ".") cl]

theorem sendClusters_globals (c : Conn) (cs : List Cluster) :
    ∀ g : Globals, g.cluster_as_a_prefix = "" → (sendClusters c g cs).2 = g := by
  induction cs with
  | nil => intro g _; rfl
  | cons cl cs ih =>
    intro g hflag
    simp [sendClusters, hflag, ih g hflag]

theorem writes_map_write (c : Conn) {α : Type} (f : α → String) (l : List α) (tail : List Event) :
    writes (l.map (fun t => Event.write c (f t)) ++ tail) = l.map f ++ writes tail := by
  induction l with
  | nil => rfl
  | cons a l ih => simp [writes, ih]

theorem flattenMetrics_length (cluster : Cluster) (host : Host) (ms : List Metric) :
    (flattenMetrics cluster host ms).length = ms.length := by
  induction ms with
  | nil => rfl
  | cons m ms ih => simp [flattenMetrics, ih]

theorem flattenHosts_length (cluster : Cluster) (hs : List Host) :
    (flattenHosts cluster hs).length = (hs.map (fun h => h.Metrics.length)).sum := by
  induction hs with
  | nil => rfl
  | cons h hs ih => simp [flattenHosts, ih, flattenMetrics_length]

theorem flatten_length (xml_root : Ganglia) : (flatten xml_root).length = metricCount xml_root := by
  unfold flatten metricCount
  induction xml_root.Clusters with
  | nil => rfl
  | cons c cs ih => simp [flattenClusters, ih, flattenHosts_length]

/-! ## The emitter: claims -/

/-- C1 (code defect).  In the scenario of the specification (cluster "c1", host
"h1" reported at 1000, metric "cpu idle" of value "99.5", empty path head) the
emitter writes exactly the expected line.  With the value "100%" the line built
at line 158 is the expected one, but it is then used as the format of `Fprintf`
at line 159, and what reaches the connection has lost the timestamp and the
final newline. -/
theorem send_carbon_data_percent_value :
    writes (send_carbon_data sampleConfig
        ⟨[⟨"c1", [⟨"h1", 1000, [⟨"cpu idle", "99.5"⟩]⟩]⟩]⟩ 0).1
      = ["h1.cpu_idle.sum 99.5 1000\n"]
    ∧ metric_string "" "h1" ⟨"cpu idle", "100%"⟩ 1000 = "h1.cpu_idle.sum 100% 1000\n"
    ∧ writes (send_carbon_data sampleConfig
        ⟨[⟨"c1", [⟨"h1", 1000, [⟨"cpu idle", "100%"⟩]⟩]⟩]⟩ 0).1
      = ["h1.cpu_idle.sum 100%!\n(MISSING)"]
    ∧ writes (send_carbon_data sampleConfig
        ⟨[⟨"c1", [⟨"h1", 1000, [⟨"cpu idle", "100%"⟩]⟩]⟩]⟩ 0).1
      ≠ [metric_string "" "h1" ⟨"cpu idle", "100%"⟩ 1000] := by
  decide

/-- C2.  The emitter performs exactly one write per metric and then closes the
connection: its trace is the flattening of the snapshot (clusters, then hosts,
then metrics, each in order), every metric replaced by the write of its record.
Hence the number of records is the number of metrics and the k-th record is the
one of the k-th metric; nothing is reordered, dropped, repeated or merged. -/
theorem one_record_per_metric (g : Globals) (xml_root : Ganglia) (conn : Conn) :
    (send_carbon_data g xml_root conn).1
        = (flatten xml_root).map (fun t => Event.write conn (record (effectivePfx g t.1) t))
          ++ [Event.close conn]
    ∧ writes (send_carbon_data g xml_root conn).1
        = (flatten xml_root).map (fun t => record (effectivePfx g t.1) t)
    ∧ (writes (send_carbon_data g xml_root conn).1).length = metricCount xml_root
    ∧ ∀ k : Nat, (writes (send_carbon_data g xml_root conn).1)[k]?
        = ((flatten xml_root)[k]?).map (fun t => record (effectivePfx g t.1) t) := by
  have h1 : (send_carbon_data g xml_root conn).1
        = (flatten xml_root).map (fun t => Event.write conn (record (effectivePfx g t.1) t))
          ++ [Event.close conn] := by
    simp [send_carbon_data, flatten, sendClusters_events]
  have h2 : writes (send_carbon_data g xml_root conn).1
        = (flatten xml_root).map (fun t => record (effectivePfx g t.1) t) := by
    rw [h1, writes_map_write]
    simp [writes]
  refine ⟨h1, h2, ?_, ?_⟩
  · rw [h2, List.length_map, flatten_length]
  · intro k
    rw [h2, List.getElem?_map]

/-- C10.  The normalisation of metric names is a total function whose result has
no space and the length of its argument, and differs from the argument exactly
where that has a space (an underscore stands there); it leaves names without
space unchanged, is idempotent, and is not injective. -/
theorem normalize_idempotent_total (n : String) :
    ' ' ∉ (normalize n).data
    ∧ (normalize n).length = n.length
    ∧ (∀ i : Nat, (normalize n).data[i]? ≠ n.data[i]? → n.data[i]? = some ' ')
    ∧ (∀ i : Nat, n.data[i]? = some ' ' → (normalize n).data[i]? = some '_')
    ∧ (' ' ∉ n.data → normalize n = n)
    ∧ normalize (normalize n) = normalize n
    ∧ (normalize "a b" = "a_b" ∧ normalize "a_b" = "a_b" ∧ "a b" ≠ "a_b")
    ∧ ¬ Function.Injective normalize := by
  have hd := normalize_data n
  refine ⟨?_, ?_, ?_, ?_, ?_, ?_, ?_, ?_⟩
  · rw [hd]
    intro h
    rcases List.mem_map.1 h with ⟨c, _, hc⟩
    by_cases e : c = ' '
    · simp [e] at hc
    · simp [e] at hc
  · show (normalize n).data.length = n.data.length
    rw [hd, List.length_map]
  · intro i hne
    rw [hd, List.getElem?_map] at hne
    cases hi : n.data[i]? with
    | none => simp [hi] at hne
    | some c =>
      by_cases e : c = ' '
      · rw [e]
      · simp [hi, e] at hne
  · intro i hi
    rw [hd, List.getElem?_map, hi]
    simp
  · intro h
    apply String.ext
    rw [hd]
    conv_rhs => rw [← List.map_id n.data]
    apply List.map_congr_left
    intro c hc
    have e : c ≠ ' ' := fun e => h (e ▸ hc)
    simp [e]
  · apply String.ext
    rw [normalize_data, hd, List.map_map]
    apply List.map_congr_left
    intro c _
    by_cases e : c = ' ' <;> simp [e]
  · decide
  · intro hinj
    have h : normalize "a b" = normalize "a_b" := by decide
    exact absurd (hinj h) (by decide)

theorem metric_string_eq_path (pfx hostname : String) (metric : Metric) (reported : Int) :
    metric_string pfx hostname metric reported
      = metric_path pfx hostname metric ++ " " ++ metric.Value ++ " " ++ decimal reported
        ++ "\n" := by
  apply String.ext
  simp only [metric_string, metric_path, String.data_append, List.append_assoc]
  rfl

theorem mem_flatten_write (g : Globals) (xml_root : Ganglia) (conn : Conn)
    (t : Cluster × Host × Metric) (ht : t ∈ flatten xml_root) :
    Event.write conn (record (effectivePfx g t.1) t) ∈ (send_carbon_data g xml_root conn).1 := by
  have h1 : (send_carbon_data g xml_root conn).1
        = (flatten xml_root).map (fun t => Event.write conn (record (effectivePfx g t.1) t))
          ++ [Event.close conn] := by
    simp [send_carbon_data, flatten, sendClusters_events]
  rw [h1]
  exact List.mem_append_left _ (List.mem_map.2 ⟨t, ht, rfl⟩)

theorem record_of_no_percent (pfx : String) (t : Cluster × Host × Metric)
    (h : '%' ∉ (metric_string pfx t.2.1.Name t.2.2 t.2.1.Reported).data) :
    record pfx t = pfx ++ t.2.1.Name ++ "." ++ normalize t.2.2.Name ++ ".sum " ++ t.2.2.Value
      ++ " " ++ decimal t.2.1.Reported ++ "\n" := by
  rw [record, Fprintf_no_percent _ h]
  rfl

/-- C7 as stated fails: only the spaces of the metric name are replaced.  For a
host named "my host" the record written is "my host.load.sum 1 1000" and its
path component "my host.load.sum" holds a space. -/
theorem path_with_whitespace :
    writes (send_carbon_data sampleConfig ⟨[⟨"c1", [⟨"my host", 1000, [⟨"load", "1"⟩]⟩]⟩]⟩ 0).1
      = [metric_path "" "my host" ⟨"load", "1"⟩ ++ " 1 1000\n"]
    ∧ metric_path "" "my host" ⟨"load", "1"⟩ = "my host.load.sum"
    ∧ ∃ c ∈ (metric_path "" "my host" ⟨"load", "1"⟩).data, c.isWhitespace = true := by
  refine ⟨by decide, by decide, ' ', by decide, by decide⟩

/-- C7, amended.  For every snapshot and configuration and every metric of the
snapshot whose path head and host name hold no whitespace, whose name holds no
whitespace other than spaces, and whose line holds no percent sign, the record
written is `path ++ " " ++ value ++ " " ++ timestamp ++ "\n"` where the path
`head ++ hostname ++ "." ++ normalized name ++ ".sum"` holds no whitespace. -/
theorem emitted_path_no_whitespace (g : Globals) (xml_root : Ganglia) (conn : Conn)
    (t : Cluster × Host × Metric) (ht : t ∈ flatten xml_root)
    (hp : ∀ c ∈ (effectivePfx g t.1).data, c.isWhitespace = false)
    (hh : ∀ c ∈ t.2.1.Name.data, c.isWhitespace = false)
    (hm : ∀ c ∈ t.2.2.Name.data, c.isWhitespace = true → c = ' ')
    (hpc : '%' ∉ (metric_string (effectivePfx g t.1) t.2.1.Name t.2.2 t.2.1.Reported).data) :
    Event.write conn (metric_path (effectivePfx g t.1) t.2.1.Name t.2.2 ++ " " ++ t.2.2.Value
        ++ " " ++ decimal t.2.1.Reported ++ "\n") ∈ (send_carbon_data g xml_root conn).1
    ∧ ∀ c ∈ (metric_path (effectivePfx g t.1) t.2.1.Name t.2.2).data, c.isWhitespace = false := by
  constructor
  · have h := mem_flatten_write g xml_root conn t ht
    rw [record, Fprintf_no_percent _ hpc, metric_string_eq_path] at h
    exact h
  · intro c hc
    simp only [metric_path, String.data_append, List.mem_append, normalize_data,
      List.mem_map] at hc
    rcases hc with (((hc | hc) | hc) | ⟨d, hd, hdc⟩) | hc
    · exact hp c hc
    · exact hh c hc
    · have e : c = '.' := by simpa using hc
      rw [e]; rfl
    · by_cases e : d = ' '
      · rw [if_pos e] at hdc
        rw [← hdc]; rfl
      · rw [if_neg e] at hdc
        rw [← hdc]
        cases hw : d.isWhitespace with
        | false => rfl
        | true => exact absurd (hm d hd hw) e
    · have e : c = '.' ∨ c = 's' ∨ c = 'u' ∨ c = 'm' := by simpa using hc
      rcases e with e | e | e | e <;> rw [e] <;> rfl

/-- Witness of the amended C7, in the scenario of the specification. -/
theorem emitted_path_no_whitespace_witness :
    Event.write 0 "h1.cpu_idle.sum 99.5 1000\n"
        ∈ (send_carbon_data sampleConfig ⟨[⟨"c1", [⟨"h1", 1000, [⟨"cpu idle", "99.5"⟩]⟩]⟩]⟩ 0).1
    ∧ ∀ c ∈ "h1.cpu_idle.sum".data, c.isWhitespace = false :=
  emitted_path_no_whitespace sampleConfig ⟨[⟨"c1", [⟨"h1", 1000, [⟨"cpu idle", "99.5"⟩]⟩]⟩]⟩ 0
    (⟨"c1", [⟨"h1", 1000, [⟨"cpu idle", "99.5"⟩]⟩]⟩, ⟨"h1", 1000, [⟨"cpu idle", "99.5"⟩]⟩,
      ⟨"cpu idle", "99.5"⟩)
    (by decide) (by decide) (by decide) (by decide) (by decide)

/-! ## The poll loop: the backoff -/

theorem backoffAt_step (k : Nat) :
    wrap64 (backoffAt k * Second) = backoffAt k * Second
    ∧ (if wrap64 (backoffAt k * ERR_SLEEP_TIME_MX) > ERR_MAX_SLEEP_TIM then ERR_INIT_SLEEP_TIME
        else wrap64 (backoffAt k * ERR_SLEEP_TIME_MX)) = backoffAt (k + 1) := by
  have h : k % 5 = 0 ∨ k % 5 = 1 ∨ k % 5 = 2 ∨ k % 5 = 3 ∨ k % 5 = 4 := by omega
  rcases h with h | h | h | h | h
  · have h1 : (k + 1) % 5 = 1 := by omega
    simp only [backoffAt, h, h1]; decide
  · have h1 : (k + 1) % 5 = 2 := by omega
    simp only [backoffAt, h, h1]; decide
  · have h1 : (k + 1) % 5 = 3 := by omega
    simp only [backoffAt, h, h1]; decide
  · have h1 : (k + 1) % 5 = 4 := by omega
    simp only [backoffAt, h, h1]; decide
  · have h1 : (k + 1) % 5 = 0 := by omega
    simp only [backoffAt, h, h1]; decide

theorem iteration_fetch_failure (sleep_duration : Int) (config : Globals) (w : World) (k : Nat)
    (hfail : (get_gmond_xml config w).2 = false) :
    iteration sleep_duration { globals := config, err_sleep_time := backoffAt k } w
      = ([Event.errSleep (backoffAt k * Second)],
          some { globals := config, err_sleep_time := backoffAt (k + 1) }) := by
  have h1 := (backoffAt_step k).1
  have h2 := (backoffAt_step k).2
  rcases hg : get_gmond_xml config w with ⟨d, ok⟩
  rw [hg] at hfail
  simp only at hfail
  subst hfail
  unfold iteration
  simp only [hg, h1]
  by_cases hgt : wrap64 (backoffAt k * ERR_SLEEP_TIME_MX) > ERR_MAX_SLEEP_TIM
  · rw [if_pos hgt] at h2
    rw [if_pos hgt, ← h2]
  · rw [if_neg hgt] at h2
    rw [if_neg hgt, ← h2]

theorem run_failures (sleep_duration : Int) (config : Globals) (ws : List World) :
    (∀ w ∈ ws, (get_gmond_xml config w).2 = false) → ∀ k : Nat,
    run sleep_duration { globals := config, err_sleep_time := backoffAt k } ws
      = ((List.range ws.length).map (fun i => Event.errSleep (backoffAt (k + i) * Second)),
          some { globals := config, err_sleep_time := backoffAt (k + ws.length) }) := by
  induction ws with
  | nil => intro _ k; rfl
  | cons w ws ih =>
    intro hfail k
    have hw : (get_gmond_xml config w).2 = false := hfail w (by simp)
    have hws : ∀ w ∈ ws, (get_gmond_xml config w).2 = false :=
      fun w1 h1 => hfail w1 (by simp [h1])
    have e : ∀ i : Nat, k + (i + 1) = k + 1 + i := by intro i; omega
    simp only [run, iteration_fetch_failure sleep_duration config w k hw, ih hws (k + 1),
      List.length_cons, List.range_succ_eq_map, List.map_cons, List.map_map, Nat.add_zero,
      List.singleton_append]
    refine Prod.ext ?_ ?_
    · show _ :: _ = _ :: _
      congr 1
      apply List.map_congr_left
      intro i _
      show Event.errSleep (backoffAt (k + 1 + i) * Second)
        = Event.errSleep (backoffAt (k + (i + 1)) * Second)
      rw [e i]
    · show some _ = some _
      rw [e ws.length]

/-- C3.  From the initial state, over any number N of consecutive fetch failures
the poll loop sleeps 2, 4, 8, 16, 32, 2, 4, ... seconds: the i-th failure
(counting from 0) sleeps 2^((i mod 5)+1) seconds and nothing else happens; the
value after the N-th failure is the next term of the sequence. -/
theorem backoff_sequence (sleep_duration : Int) (config : Globals) (ws : List World)
    (hfail : ∀ w ∈ ws, (get_gmond_xml config w).2 = false) :
    (run sleep_duration (initState config) ws).1
      = (List.range ws.length).map (fun i => Event.errSleep (2 ^ (i % 5 + 1) * Second))
    ∧ (run sleep_duration (initState config) ws).2
      = some { globals := config, err_sleep_time := 2 ^ (ws.length % 5 + 1) } := by
  have h := run_failures sleep_duration config ws hfail 0
  have e : initState config = { globals := config, err_sleep_time := backoffAt 0 } := rfl
  rw [e, h]
  simp [backoffAt]

/-- Witness of C3: six failures in a row sleep 2, 4, 8, 16, 32 and 2 seconds. -/
theorem backoff_sequence_witness :
    (run 0 (initState sampleConfig)
        [worldDown, worldDown, worldDown, worldDown, worldDown, worldDown]).1
      = [Event.errSleep (2 * Second), Event.errSleep (4 * Second), Event.errSleep (8 * Second),
          Event.errSleep (16 * Second), Event.errSleep (32 * Second),
          Event.errSleep (2 * Second)] :=
  (backoff_sequence 0 sampleConfig
    [worldDown, worldDown, worldDown, worldDown, worldDown, worldDown] (by decide)).1.trans
    (by decide)

/-! ## The sink connector -/

theorem connect_to_carbon_literal (g : Globals) (w : World)
    (h4 : To4 (w.ParseIP g.carbon_address) ≠ []) :
    connect_to_carbon g w
      = ([Event.dial g.carbon_protocol (g.carbon_address ++ ":" ++ g.carbon_port)],
          match w.DialTimeout g.carbon_protocol (g.carbon_address ++ ":" ++ g.carbon_port) with
          | some c => CarbonResult.conn c
          | none => CarbonResult.err) := by
  unfold connect_to_carbon
  simp only [h4, ne_eq, not_false_eq_true, if_true]
  cases w.DialTimeout g.carbon_protocol (g.carbon_address ++ ":" ++ g.carbon_port) <;> rfl

theorem connect_to_carbon_resolved (g : Globals) (w : World)
    (h4 : To4 (w.ParseIP g.carbon_address) = []) (ip0 : String) (rest : List String)
    (hl : (w.LookupHost g.carbon_address).1 = ip0 :: rest) :
    connect_to_carbon g w
      = ([Event.lookup g.carbon_address,
            Event.dial g.carbon_protocol (ip0 ++ ":" ++ g.carbon_port)],
          match w.DialTimeout g.carbon_protocol (ip0 ++ ":" ++ g.carbon_port) with
          | some c => CarbonResult.conn c
          | none => CarbonResult.err) := by
  unfold connect_to_carbon
  simp only [h4, ne_eq, not_true_eq_false, if_false, hl]
  cases w.DialTimeout g.carbon_protocol (ip0 ++ ":" ++ g.carbon_port) <;> rfl

theorem connect_to_carbon_unresolved (g : Globals) (w : World)
    (h4 : To4 (w.ParseIP g.carbon_address) = [])
    (hl : (w.LookupHost g.carbon_address).1 = []) :
    connect_to_carbon g w = ([Event.lookup g.carbon_address], CarbonResult.indexOutOfRange) := by
  unfold connect_to_carbon
  simp only [h4, ne_eq, not_true_eq_false, if_false, hl]

theorem connect_to_carbon_events (g : Globals) (w : World) :
    ∀ e ∈ (connect_to_carbon g w).1,
      isSleep e = false ∧ isWrite e = false ∧ ∀ d, e ≠ Event.pollSleep d := by
  intro e he
  by_cases h4 : To4 (w.ParseIP g.carbon_address) = []
  · cases hl : (w.LookupHost g.carbon_address).1 with
    | nil =>
      rw [connect_to_carbon_unresolved g w h4 hl] at he
      simp only [List.mem_singleton] at he
      subst he
      exact ⟨rfl, rfl, fun d h => by cases h⟩
    | cons ip0 rest =>
      rw [connect_to_carbon_resolved g w h4 ip0 rest hl] at he
      simp only [List.mem_cons, List.mem_singleton, List.mem_nil_iff, or_false] at he
      rcases he with he | he <;> subst he <;> exact ⟨rfl, rfl, fun d h => by cases h⟩
  · rw [connect_to_carbon_literal g w h4] at he
    simp only [List.mem_singleton] at he
    subst he
    exact ⟨rfl, rfl, fun d h => by cases h⟩

/-! ## The poll loop: one round -/

theorem iteration_of_fetch_failure (sleep_duration : Int) (st : LoopState) (w : World)
    (hf : (get_gmond_xml st.globals w).2 = false) :
    (iteration sleep_duration st w).1 = [Event.errSleep (wrap64 (st.err_sleep_time * Second))]
    ∧ (iteration sleep_duration st w).2
      = some { st with
          err_sleep_time :=
            (if wrap64 (st.err_sleep_time * ERR_SLEEP_TIME_MX) > ERR_MAX_SLEEP_TIM
              then ERR_INIT_SLEEP_TIME else wrap64 (st.err_sleep_time * ERR_SLEEP_TIME_MX)) } := by
  rcases hg : get_gmond_xml st.globals w with ⟨d, ok⟩
  rw [hg] at hf
  simp only at hf
  subst hf
  unfold iteration
  simp only [hg]
  by_cases hgt : wrap64 (st.err_sleep_time * ERR_SLEEP_TIME_MX) > ERR_MAX_SLEEP_TIM
  · simp only [if_pos hgt, and_self]
  · simp only [if_neg hgt, and_self]

theorem iteration_of_decode_failure (sleep_duration : Int) (st : LoopState) (w : World)
    (hf : (get_gmond_xml st.globals w).2 = true)
    (hd : (process_xml w (get_gmond_xml st.globals w).1).2 = true) :
    iteration sleep_duration st w = ([], some st) := by
  rcases hg : get_gmond_xml st.globals w with ⟨d, ok⟩
  rw [hg] at hf hd
  simp only at hf hd
  subst hf
  rcases hp : process_xml w d with ⟨x, e⟩
  rw [hp] at hd
  simp only at hd
  subst hd
  unfold iteration
  simp only [hg, hp]

theorem iteration_of_decode_success (sleep_duration : Int) (st : LoopState) (w : World)
    (hf : (get_gmond_xml st.globals w).2 = true)
    (hd : (process_xml w (get_gmond_xml st.globals w).1).2 = false) :
    iteration sleep_duration st w
      = match connect_to_carbon st.globals w with
        | (ev, CarbonResult.indexOutOfRange) => (ev, none)
        | (ev, CarbonResult.err) => (ev, some st)
        | (ev, CarbonResult.conn carbon_conn) =>
          (ev ++ (send_carbon_data st.globals
                (process_xml w (get_gmond_xml st.globals w).1).1 carbon_conn).1
              ++ [Event.pollSleep (wrap64 (sleep_duration * Second))],
            some {
              globals := (send_carbon_data st.globals
                (process_xml w (get_gmond_xml st.globals w).1).1 carbon_conn).2,
              err_sleep_time := ERR_INIT_SLEEP_TIME }) := by
  rcases hg : get_gmond_xml st.globals w with ⟨d, ok⟩
  rw [hg] at hf hd
  simp only at hf hd
  subst hf
  rcases hp : process_xml w d with ⟨x, e⟩
  rw [hp] at hd
  simp only at hd
  subst hd
  unfold iteration
  simp only [hg, hp]

theorem send_carbon_data_globals (g : Globals) (xml_root : Ganglia) (conn : Conn)
    (hflag : g.cluster_as_a_prefix = "") : (send_carbon_data g xml_root conn).2 = g := by
  simp [send_carbon_data, sendClusters_globals conn xml_root.Clusters g hflag]

theorem iteration_globals (sleep_duration : Int) (st : LoopState) (w : World)
    (hflag : st.globals.cluster_as_a_prefix = "") (st1 : LoopState)
    (h : (iteration sleep_duration st w).2 = some st1) : st1.globals = st.globals := by
  cases hf : (get_gmond_xml st.globals w).2 with
  | false =>
    rw [(iteration_of_fetch_failure sleep_duration st w hf).2] at h
    simp only [Option.some.injEq] at h
    rw [← h]
  | true =>
    cases hd : (process_xml w (get_gmond_xml st.globals w).1).2 with
    | true =>
      rw [iteration_of_decode_failure sleep_duration st w hf hd] at h
      simp only [Option.some.injEq] at h
      rw [← h]
    | false =>
      rw [iteration_of_decode_success sleep_duration st w hf hd] at h
      rcases hcc : connect_to_carbon st.globals w with ⟨ev, r⟩
      rw [hcc] at h
      cases r with
      | conn c =>
        simp only [Option.some.injEq] at h
        rw [← h]
        exact send_carbon_data_globals st.globals _ c hflag
      | err =>
        simp only [Option.some.injEq] at h
        rw [← h]
      | indexOutOfRange => cases h

theorem run_globals (sleep_duration : Int) (ws : List World) :
    ∀ st : LoopState, st.globals.cluster_as_a_prefix = "" →
      ∀ st2 : LoopState, (run sleep_duration st ws).2 = some st2 → st2.globals = st.globals := by
  induction ws with
  | nil =>
    intro st _ st2 h
    simp only [run, Option.some.injEq] at h
    rw [← h]
  | cons w ws ih =>
    intro st hflag st2 h
    rcases hi : iteration sleep_duration st w with ⟨ev, r⟩
    have hi2 : (iteration sleep_duration st w).2 = r := by rw [hi]
    cases r with
    | none =>
      simp only [run, hi] at h
      cases h
    | some st1 =>
      have hg := iteration_globals sleep_duration st w hflag st1 hi2
      simp only [run, hi] at h
      rw [ih st1 (by rw [hg]; exact hflag) st2 h, hg]


/-! ## The shared path head: claim -/

/-- C8.  With the cluster flag set, every metric of a cluster C is emitted with
the path head `C.Name ++ "."`, whatever the configured head and whatever clusters
came before.  With the flag empty every metric is emitted with the configured
head, and the shared variable is the same after the pass, hence all along a
run of the poll loop that starts from the configuration. -/
theorem cluster_name_as_path_head (g : Globals) (xml_root : Ganglia) (conn : Conn) :
    (g.cluster_as_a_prefix ≠ "" →
      (send_carbon_data g xml_root conn).1
        = (flatten xml_root).map (fun t => Event.write conn (record (t.1.Name ++ ".") t))
          ++ [Event.close conn])
    ∧ (g.cluster_as_a_prefix = "" →
      (send_carbon_data g xml_root conn).1
        = (flatten xml_root).map (fun t => Event.write conn (record g.graphite_prefix t))
          ++ [Event.close conn]
      ∧ (send_carbon_data g xml_root conn).2 = g
      ∧ ∀ (sleep_duration : Int) (ws : List World) (st : LoopState),
          (run sleep_duration (initState g) ws).2 = some st → st.globals = g) := by
  have h1 : (send_carbon_data g xml_root conn).1
        = (flatten xml_root).map (fun t => Event.write conn (record (effectivePfx g t.1) t))
          ++ [Event.close conn] := by
    simp [send_carbon_data, flatten, sendClusters_events]
  constructor
  · intro hflag
    rw [h1]
    simp [effectivePfx, hflag]
  · intro hflag
    refine ⟨?_, ?_, ?_⟩
    · rw [h1]
      simp [effectivePfx, hflag]
    · exact send_carbon_data_globals g xml_root conn hflag
    · intro sleep_duration ws st hst
      exact run_globals sleep_duration ws (initState g) hflag st hst

/-- Witness of C8: clusters "A" and "B" with the flag set and a configured head
"zone." give the heads "A." and "B."; with the flag empty both get "zone.". -/
theorem cluster_name_as_path_head_witness :
    writes (send_carbon_data { sampleConfig with graphite_prefix := "zone.", cluster_as_a_prefix := "1" }
        ⟨[⟨"A", [⟨"h1", 1000, [⟨"load", "1"⟩]⟩]⟩, ⟨"B", [⟨"h2", 1001, [⟨"load", "2"⟩]⟩]⟩]⟩ 0).1
      = ["A.h1.load.sum 1 1000\n", "B.h2.load.sum 2 1001\n"]
    ∧ writes (send_carbon_data { sampleConfig with graphite_prefix := "zone." }
        ⟨[⟨"A", [⟨"h1", 1000, [⟨"load", "1"⟩]⟩]⟩, ⟨"B", [⟨"h2", 1001, [⟨"load", "2"⟩]⟩]⟩]⟩ 0).1
      = ["zone.h1.load.sum 1 1000\n", "zone.h2.load.sum 2 1001\n"] := by
  have e1 := (cluster_name_as_path_head
    { sampleConfig with graphite_prefix := "zone.", cluster_as_a_prefix := "1" }
    ⟨[⟨"A", [⟨"h1", 1000, [⟨"load", "1"⟩]⟩]⟩, ⟨"B", [⟨"h2", 1001, [⟨"load", "2"⟩]⟩]⟩]⟩ 0).1
    (by decide)
  have e2 := ((cluster_name_as_path_head { sampleConfig with graphite_prefix := "zone." }
    ⟨[⟨"A", [⟨"h1", 1000, [⟨"load", "1"⟩]⟩]⟩, ⟨"B", [⟨"h2", 1001, [⟨"load", "2"⟩]⟩]⟩]⟩ 0).2
    (by decide)).1
  rw [e1, e2]
  decide

/-! ## The sink connector: claims -/

/-- C5 (code defect).  When the sink address has no IPv4 form and the resolver
fails (an error and no address), `connect_to_carbon` does not return an error:
after the call of the resolver the index expression `carbon_ips[0]` is out of
range, and a round of the poll loop that got that far ends the process. -/
theorem resolution_failure_ends_process (sleep_duration : Int) (st : LoopState) (w : World)
    (h4 : To4 (w.ParseIP st.globals.carbon_address) = [])
    (hres : w.LookupHost st.globals.carbon_address = ([], true))
    (hf : (get_gmond_xml st.globals w).2 = true)
    (hd : (process_xml w (get_gmond_xml st.globals w).1).2 = false) :
    connect_to_carbon st.globals w
      = ([Event.lookup st.globals.carbon_address], CarbonResult.indexOutOfRange)
    ∧ (connect_to_carbon st.globals w).2 ≠ CarbonResult.err
    ∧ iteration sleep_duration st w = ([Event.lookup st.globals.carbon_address], none)
    ∧ ∀ ws : List World, (run sleep_duration st (w :: ws)).2 = none := by
  have hl : (w.LookupHost st.globals.carbon_address).1 = [] := by rw [hres]
  have hc := connect_to_carbon_unresolved st.globals w h4 hl
  have hi : iteration sleep_duration st w = ([Event.lookup st.globals.carbon_address], none) := by
    rw [iteration_of_decode_success sleep_duration st w hf hd, hc]
  refine ⟨hc, ?_, hi, ?_⟩
  · rw [hc]
    intro h
    cases h
  · intro ws
    simp only [run, hi]

/-- Witness of C5: the host name "carbon.example" and a resolver that fails. -/
theorem resolution_failure_ends_process_witness :
    connect_to_carbon { sampleConfig with carbon_address := "carbon.example" } worldNoResolver
      = ([Event.lookup "carbon.example"], CarbonResult.indexOutOfRange)
    ∧ (run 0 (initState { sampleConfig with carbon_address := "carbon.example" })
        [worldNoResolver, worldUp]).2 = none :=
  have h := resolution_failure_ends_process 0
    (initState { sampleConfig with carbon_address := "carbon.example" }) worldNoResolver
    (by decide) (by decide) (by decide) (by decide)
  ⟨h.1, h.2.2.2 [worldUp]⟩

/-- C6 as stated fails on an IPv6 literal: "::1" is a valid literal address, yet
the resolver is called and the address dialled is the one it returns. -/
theorem ipv6_literal_is_resolved :
    sampleParseIP "::1" ≠ []
    ∧ (connect_to_carbon { sampleConfig with carbon_address := "::1" } worldUp).1
      = [Event.lookup "::1", Event.dial "tcp" "::1:2003"] := by
  decide

/-- C6, amended.  When the parsed sink address has an IPv4 form (`To4` is not
nil) the resolver is not called and the address dialled is the configured one.
Otherwise the resolver is called exactly once, before the dial, and when it
returns at least one address the address dialled is the first one, whatever the
others.  Either way the connection string is the address, a colon and the port. -/
theorem connect_to_carbon_selects_address (g : Globals) (w : World) :
    (To4 (w.ParseIP g.carbon_address) ≠ [] →
      (connect_to_carbon g w).1
        = [Event.dial g.carbon_protocol (g.carbon_address ++ ":" ++ g.carbon_port)])
    ∧ (To4 (w.ParseIP g.carbon_address) = [] →
      ∀ (ip0 : String) (rest : List String),
        (w.LookupHost g.carbon_address).1 = ip0 :: rest →
        (connect_to_carbon g w).1
          = [Event.lookup g.carbon_address,
              Event.dial g.carbon_protocol (ip0 ++ ":" ++ g.carbon_port)]) := by
  constructor
  · intro h4
    rw [connect_to_carbon_literal g w h4]
  · intro h4 ip0 rest hl
    rw [connect_to_carbon_resolved g w h4 ip0 rest hl]

/-- Witness of the amended C6: the literal "10.0.0.5" is dialled without any
call of the resolver; for "carbon.example" the resolver is called once and the
first of its two answers is dialled. -/
theorem connect_to_carbon_selects_address_witness :
    (connect_to_carbon sampleConfig worldUp).1 = [Event.dial "tcp" "10.0.0.5:2003"]
    ∧ (connect_to_carbon { sampleConfig with carbon_address := "carbon.example" } worldUp).1
      = [Event.lookup "carbon.example", Event.dial "tcp" "192.0.2.7:2003"] :=
  ⟨((connect_to_carbon_selects_address sampleConfig worldUp).1 (by decide)).trans (by decide),
    ((connect_to_carbon_selects_address { sampleConfig with carbon_address := "carbon.example" }
      worldUp).2 (by decide) "192.0.2.7" ["192.0.2.8"] (by decide)).trans (by decide)⟩

/-! ## The poll loop: claims -/

/-- C4 as stated fails: after one fetch failure the backoff value is 4; a round
whose fetch succeeds but whose decode fails leaves it at 4, and the next fetch
failure sleeps 4 seconds, not 2. -/
theorem backoff_kept_after_decode_failure :
    (get_gmond_xml sampleConfig worldBadXml).2 = true
    ∧ (run 0 (initState sampleConfig) [worldDown]).2
      = some { globals := sampleConfig, err_sleep_time := 4 }
    ∧ (iteration 0 { globals := sampleConfig, err_sleep_time := 4 } worldBadXml).2
      = some { globals := sampleConfig, err_sleep_time := 4 }
    ∧ (run 0 (initState sampleConfig) [worldDown, worldBadXml, worldDown]).1
      = [Event.errSleep (2 * Second), Event.errSleep (4 * Second)] := by
  decide

/-- C4, amended.  A round in which fetch, decode and sink connect all succeed
ends with the backoff value 2, whatever the state at its start, so that the
next fetch failure sleeps 2 seconds. -/
theorem backoff_reset_after_full_cycle (sleep_duration : Int) (st : LoopState) (w : World)
    (c : Conn)
    (hf : (get_gmond_xml st.globals w).2 = true)
    (hd : (process_xml w (get_gmond_xml st.globals w).1).2 = false)
    (hc : (connect_to_carbon st.globals w).2 = CarbonResult.conn c) :
    ∃ st1 : LoopState, (iteration sleep_duration st w).2 = some st1
      ∧ st1.err_sleep_time = 2
      ∧ ∀ w2 : World, (get_gmond_xml st1.globals w2).2 = false →
          (iteration sleep_duration st1 w2).1 = [Event.errSleep (2 * Second)] := by
  rcases hcc : connect_to_carbon st.globals w with ⟨ev, r⟩
  rw [hcc] at hc
  simp only at hc
  subst hc
  refine ⟨LoopState.mk (send_carbon_data st.globals
      (process_xml w (get_gmond_xml st.globals w).1).1 c).2 ERR_INIT_SLEEP_TIME, ?_, ?_, ?_⟩
  · rw [iteration_of_decode_success sleep_duration st w hf hd, hcc]
  · rfl
  · intro w2 hf2
    rw [(iteration_of_fetch_failure sleep_duration _ w2 hf2).1]
    rfl

/-- Witness of the amended C4: after a fetch failure, a full cycle brings the
value back to 2. -/
theorem backoff_reset_after_full_cycle_witness :
    ∃ st1 : LoopState,
      (iteration 0 { globals := sampleConfig, err_sleep_time := 4 } worldUp).2 = some st1
      ∧ st1.err_sleep_time = 2
      ∧ ∀ w2 : World, (get_gmond_xml st1.globals w2).2 = false →
          (iteration 0 st1 w2).1 = [Event.errSleep (2 * Second)] :=
  backoff_reset_after_full_cycle 0 { globals := sampleConfig, err_sleep_time := 4 } worldUp 0
    (by decide) (by decide) (by decide)

/-- C9.  A round whose fetch succeeds but whose decode or sink connect fails
sleeps at neither place and writes nothing to the sink; when decode fails or
the connector returns an error the round ends in the state it started from
(backoff value included).  The sleep of the normal interval happens in a round
if and only if fetch, decode and sink connect succeeded in it; in such a round
the emitter runs to its end and the sleep of the configured interval is the
last action of the round. -/
theorem failed_cycle_no_sleep (sleep_duration : Int) (st : LoopState) (w : World) :
    ((get_gmond_xml st.globals w).2 = true →
      ((process_xml w (get_gmond_xml st.globals w).1).2 = true
        ∨ ∀ c, (connect_to_carbon st.globals w).2 ≠ CarbonResult.conn c) →
      (∀ e ∈ (iteration sleep_duration st w).1, isSleep e = false ∧ isWrite e = false)
      ∧ ∀ st1, (iteration sleep_duration st w).2 = some st1 → st1 = st)
    ∧ ((get_gmond_xml st.globals w).2 = true →
      ((process_xml w (get_gmond_xml st.globals w).1).2 = true
        ∨ (connect_to_carbon st.globals w).2 = CarbonResult.err) →
      (iteration sleep_duration st w).2 = some st)
    ∧ ((∃ d, Event.pollSleep d ∈ (iteration sleep_duration st w).1) ↔
      ((get_gmond_xml st.globals w).2 = true
        ∧ (process_xml w (get_gmond_xml st.globals w).1).2 = false
        ∧ ∃ c, (connect_to_carbon st.globals w).2 = CarbonResult.conn c))
    ∧ (∀ c, (get_gmond_xml st.globals w).2 = true →
      (process_xml w (get_gmond_xml st.globals w).1).2 = false →
      (connect_to_carbon st.globals w).2 = CarbonResult.conn c →
      (iteration sleep_duration st w).1
        = (connect_to_carbon st.globals w).1
          ++ (send_carbon_data st.globals
              (process_xml w (get_gmond_xml st.globals w).1).1 c).1
          ++ [Event.pollSleep (wrap64 (sleep_duration * Second))]) := by
  have hev := connect_to_carbon_events st.globals w
  cases hf : (get_gmond_xml st.globals w).2 with
  | false =>
    have h1 := (iteration_of_fetch_failure sleep_duration st w hf).1
    refine ⟨fun h => (by cases h), fun h => (by cases h), ?_, fun _ h => (by cases h)⟩
    constructor
    · rintro ⟨d, hd⟩
      rw [h1] at hd
      simp at hd
    · rintro ⟨h, _⟩
      cases h
  | true =>
    cases hd : (process_xml w (get_gmond_xml st.globals w).1).2 with
    | true =>
      have h1 := iteration_of_decode_failure sleep_duration st w hf hd
      refine ⟨fun _ _ => ?_, fun _ _ => ?_, ?_, fun _ _ h => (by cases h)⟩
      · rw [h1]
        refine ⟨fun e he => (by simp at he), fun st1 h => ?_⟩
        simp only [Option.some.injEq] at h
        exact h.symm
      · rw [h1]
      · constructor
        · rintro ⟨d, hd⟩
          rw [h1] at hd
          simp at hd
        · rintro ⟨_, h, _⟩
          cases h
    | false =>
      have h1 := iteration_of_decode_success sleep_duration st w hf hd
      rcases hcc : connect_to_carbon st.globals w with ⟨ev, r⟩
      rw [hcc] at h1 hev
      cases r with
      | conn c =>
        simp only at h1
        refine ⟨fun _ h => ?_, fun _ h => ?_, ?_, fun c2 _ _ h => ?_⟩
        · rcases h with h | h
          · cases h
          · exact absurd rfl (h c)
        · rcases h with h | h
          · cases h
          · cases h
        · constructor
          · intro _
            exact ⟨rfl, rfl, c, rfl⟩
          · intro _
            exact ⟨wrap64 (sleep_duration * Second), by rw [h1]; simp⟩
        · simp only [CarbonResult.conn.injEq] at h
          subst h
          rw [h1]
      | err =>
        simp only at h1
        refine ⟨fun _ _ => ?_, fun _ _ => ?_, ?_, fun _ _ _ h => (by cases h)⟩
        · rw [h1]
          refine ⟨fun e he => ⟨(hev e he).1, (hev e he).2.1⟩, fun st1 h => ?_⟩
          simp only [Option.some.injEq] at h
          exact h.symm
        · rw [h1]
        · constructor
          · rintro ⟨d, hd⟩
            rw [h1] at hd
            exact absurd rfl ((hev _ hd).2.2 d)
          · rintro ⟨_, _, c, h⟩
            cases h
      | indexOutOfRange =>
        simp only at h1
        refine ⟨fun _ _ => ?_, fun _ h => ?_, ?_, fun _ _ _ h => (by cases h)⟩
        · rw [h1]
          refine ⟨fun e he => ⟨(hev e he).1, (hev e he).2.1⟩, fun st1 h => ?_⟩
          cases h
        · rcases h with h | h
          · cases h
          · cases h
        · constructor
          · rintro ⟨d, hd⟩
            rw [h1] at hd
            exact absurd rfl ((hev _ hd).2.2 d)
          · rintro ⟨_, _, c, h⟩
            cases h

/-- Witness of C9: from the backoff value 4, a round with a decode failure and
a round with a refused sink connection neither sleep nor write and keep the
state; a full cycle with a configured interval of 5 seconds ends by sleeping
5 seconds. -/
theorem failed_cycle_no_sleep_witness :
    ((∀ e ∈ (iteration 5 { globals := sampleConfig, err_sleep_time := 4 } worldBadXml).1,
        isSleep e = false ∧ isWrite e = false)
      ∧ (iteration 5 { globals := sampleConfig, err_sleep_time := 4 } worldBadXml).2
        = some { globals := sampleConfig, err_sleep_time := 4 })
    ∧ ((∀ e ∈ (iteration 5 { globals := sampleConfig, err_sleep_time := 4 } worldSinkDown).1,
        isSleep e = false ∧ isWrite e = false)
      ∧ (iteration 5 { globals := sampleConfig, err_sleep_time := 4 } worldSinkDown).2
        = some { globals := sampleConfig, err_sleep_time := 4 })
    ∧ (∃ d, Event.pollSleep d
        ∈ (iteration 5 { globals := sampleConfig, err_sleep_time := 4 } worldUp).1)
    ∧ (iteration 5 { globals := sampleConfig, err_sleep_time := 4 } worldUp).1
      = [Event.dial "tcp" "10.0.0.5:2003", Event.write 0 "h1.cpu_idle.sum 99.5 1000\n",
          Event.close 0, Event.pollSleep (5 * Second)] :=
  ⟨⟨((failed_cycle_no_sleep 5 { globals := sampleConfig, err_sleep_time := 4 }
        worldBadXml).1 (by decide) (Or.inl (by decide))).1,
      (failed_cycle_no_sleep 5 { globals := sampleConfig, err_sleep_time := 4 }
        worldBadXml).2.1 (by decide) (Or.inl (by decide))⟩,
    ⟨((failed_cycle_no_sleep 5 { globals := sampleConfig, err_sleep_time := 4 }
        worldSinkDown).1 (by decide) (Or.inr (fun c h =>
          have e : (connect_to_carbon sampleConfig worldSinkDown).2 = CarbonResult.err := by
            decide
          CarbonResult.noConfusion (e.symm.trans h)))).1,
      (failed_cycle_no_sleep 5 { globals := sampleConfig, err_sleep_time := 4 }
        worldSinkDown).2.1 (by decide) (Or.inr (by decide))⟩,
    (failed_cycle_no_sleep 5 { globals := sampleConfig, err_sleep_time := 4 }
      worldUp).2.2.1.2 ⟨by decide, by decide, 0, by decide⟩,
    ((failed_cycle_no_sleep 5 { globals := sampleConfig, err_sleep_time := 4 }
      worldUp).2.2.2 0 (by decide) (by decide) (by decide)).trans (by decide)⟩

end Gangster
